import Mathlib

/-!
Verification development for the `hijack-stream-support` package
(`src/client.go`, the server hijack file, and the older client revision
`src/unnamed/part_000`).

The Go source is shallowly embedded: pure computations become Lean
functions, and the outcomes of external effects (URL parsing, dialing,
the HTTP round trip, stream copies) are passed in explicitly, so that
each code path of the source is a branch of a Lean definition.  Errors
are modelled as `String` (Go `error` values carry a message), byte
chunks as `List Nat`.
-/

set_option autoImplicit false

/-! ## HTTP headers

`net/http`'s `Header` is a map from (canonical) keys to lists of values.
We embed it as an association list over already-canonical string keys.
`Del` removes every entry for a key; `Set` replaces the entries for a
key by the single given value; `Get`-style lookup returns the value
list stored for a key (empty when absent).
-/

abbrev HeaderM := List (String × List String)

def headerDel : HeaderM → String → HeaderM
  | [], _ => []
  | p :: rest, k => if p.1 = k then headerDel rest k else p :: headerDel rest k

def headerSet (h : HeaderM) (k v : String) : HeaderM :=
  (k, [v]) :: headerDel h k

def headerGet : HeaderM → String → List String
  | [], _ => []
  | p :: rest, k => if p.1 = k then p.2 else headerGet rest k

theorem headerGet_del_same (h : HeaderM) (k : String) :
    headerGet (headerDel h k) k = [] := by
  induction h with
  | nil => rfl
  | cons p rest ih =>
    by_cases hp : p.1 = k <;> simp [headerDel, headerGet, hp, ih]

theorem headerGet_del_ne (h : HeaderM) (k k' : String) (hne : k' ≠ k) :
    headerGet (headerDel h k) k' = headerGet h k' := by
  induction h with
  | nil => rfl
  | cons p rest ih =>
    simp only [headerDel, headerGet]
    by_cases hp : p.1 = k
    · have h1 : p.1 ≠ k' := fun hc => hne (hc ▸ hp)
      rw [if_pos hp, ih, if_neg h1]
    · rw [if_neg hp]
      simp only [headerGet]
      rw [ih]

theorem headerGet_set_same (h : HeaderM) (k v : String) :
    headerGet (headerSet h k v) k = [v] := by
  simp [headerSet, headerGet]

theorem headerGet_set_ne (h : HeaderM) (k k' v : String) (hne : k' ≠ k) :
    headerGet (headerSet h k v) k' = headerGet h k' := by
  have : k ≠ k' := fun hc => hne hc.symm
  simp [headerSet, headerGet, this, headerGet_del_ne h k k' hne]

/-! ### Applying caller-supplied headers

`createHijackHttpRequest` runs, for each caller header entry `(k, values)`:
`req.Header.Del(k)` followed by `req.Header.Set(k, v)` for each `v` in
`values` — so only the last value of `values` survives.
-/

def setValues (h : HeaderM) (k : String) (vs : List String) : HeaderM :=
  vs.foldl (fun h v => headerSet h k v) (headerDel h k)

def applyCallerHeaders (h : HeaderM) (caller : List (String × List String)) : HeaderM :=
  caller.foldl (fun h kv => setValues h kv.1 kv.2) h

theorem headerGet_foldlSet_ne (vs : List String) (h : HeaderM) (k k' : String)
    (hne : k' ≠ k) :
    headerGet (vs.foldl (fun h v => headerSet h k v) h) k' = headerGet h k' := by
  induction vs generalizing h with
  | nil => rfl
  | cons v rest ih =>
    simp only [List.foldl_cons]
    rw [ih (headerSet h k v), headerGet_set_ne h k k' v hne]

theorem headerGet_setValues_ne (h : HeaderM) (k k' : String) (vs : List String)
    (hne : k' ≠ k) :
    headerGet (setValues h k vs) k' = headerGet h k' := by
  unfold setValues
  rw [headerGet_foldlSet_ne vs (headerDel h k) k k' hne,
    headerGet_del_ne h k k' hne]

theorem headerGet_foldlSet_same (v : String) (vs : List String) (h : HeaderM)
    (k : String) :
    headerGet ((v :: vs).foldl (fun h v => headerSet h k v) h) k
      = ((v :: vs).getLast?).toList := by
  induction vs generalizing v h with
  | nil => simp [headerGet_set_same]
  | cons w rest ih =>
    simp only [List.foldl_cons] at ih ⊢
    rw [ih w (headerSet h k v), List.getLast?_cons_cons]

theorem headerGet_setValues_same (h : HeaderM) (k : String) (vs : List String) :
    headerGet (setValues h k vs) k = vs.getLast?.toList := by
  cases vs with
  | nil => simpa [setValues] using headerGet_del_same h k
  | cons v rest => exact headerGet_foldlSet_same v rest (headerDel h k) k

theorem headerGet_applyCaller_not_mem (caller : List (String × List String))
    (h : HeaderM) (k : String) (hk : k ∉ caller.map Prod.fst) :
    headerGet (applyCallerHeaders h caller) k = headerGet h k := by
  induction caller generalizing h with
  | nil => rfl
  | cons kv rest ih =>
    simp only [List.map_cons, List.mem_cons, not_or] at hk
    simp only [applyCallerHeaders, List.foldl_cons] at ih ⊢
    rw [ih (setValues h kv.1 kv.2) hk.2,
      headerGet_setValues_ne h kv.1 k kv.2 hk.1]

theorem headerGet_applyCaller_mem (caller : List (String × List String))
    (h : HeaderM) (k : String) (vs : List String)
    (hnd : (caller.map Prod.fst).Nodup) (hmem : (k, vs) ∈ caller) :
    headerGet (applyCallerHeaders h caller) k = vs.getLast?.toList := by
  induction caller generalizing h with
  | nil => cases hmem
  | cons kv rest ih =>
    simp only [List.map_cons, List.nodup_cons] at hnd
    simp only [applyCallerHeaders, List.foldl_cons] at ih ⊢
    rcases List.mem_cons.mp hmem with heq | hrest
    · have hk : k = kv.1 := by rw [← heq]
      have hnot : k ∉ rest.map Prod.fst := by
        rw [hk]
        exact hnd.1
      have hskip := headerGet_applyCaller_not_mem rest (setValues h kv.1 kv.2) k hnot
      simp only [applyCallerHeaders] at hskip
      rw [hskip, hk, headerGet_setValues_same h kv.1 kv.2]
      have : vs = kv.2 := by rw [← heq]
      rw [this]
    · exact ih (setValues h kv.1 kv.2) hnd.2 hrest

/-! ## The client handshake (`HijackHttpRequest` in `src/client.go`)

The session options.  External values are reduced to what the code
inspects: `hasData` is whether `options.Data != nil`, and the caller
header map is an association list with pairwise-distinct (canonical)
keys, as a Go map has.
-/

structure OptionsM where
  method : String
  url : String
  host : String
  header : Option (List (String × List String))
  hasData : Bool
  deriving Repr, DecidableEq

/-- Outcomes of the external effects the client handshake performs, in
the order the code performs them: `json.Marshal` of `options.Data`
(consulted only when data is present), `http.NewRequest`,
`neturl.Parse`, the dial, `clientconn.Do`, and the whole of
`streamData` (abstracted to its resulting error here; it is modelled in
detail further below).  `httputil.ClientConn.Hijack` returns no error
in Go, so it has no outcome slot. -/
structure UrlParts where
  scheme : String
  host : String
  path : String
  deriving Repr, DecidableEq

structure EnvM where
  marshalErr : Option String
  newRequestErr : Option String
  parseResult : Except String UrlParts
  dialResult : Except String Nat
  doErr : Option String
  streamResult : Option String
  deriving Repr

/-- The request object, reduced to the fields the spec's claims are
about. -/
structure RequestM where
  method : String
  url : String
  host : String
  header : HeaderM
  deriving Repr, DecidableEq

def ErrMissingMethod : String := "Method not set"

def ErrMissingUrl : String := "Url not set"

/-- Embedding of `createHijackHttpRequest` from `src/client.go`:
JSON-encode the body when data is present, build the request, apply the
caller headers (Del then Set per value), then set
`Content-Type: text/plain` (the `Connection`/`Upgrade` lines are
commented out in this file), then override `req.Host` when
`options.Host` is non-empty. -/
def createHijackHttpRequest (o : OptionsM) (env : EnvM) : Except String RequestM :=
  match (if o.hasData then env.marshalErr else none) with
  | some e => .error e
  | none =>
    match env.newRequestErr with
    | some e => .error e
    | none =>
      let h : HeaderM :=
        match o.header with
        | none => []
        | some caller => applyCallerHeaders [] caller
      let h := headerSet h "Content-Type" "text/plain"
      .ok { method := o.method, url := o.url
            host := o.host, header := h }

/-- Embedding of `createHijackHttpRequest` from the older client
revision `src/unnamed/part_000`: identical, except that after
`Content-Type` it also sets `Connection: Upgrade` and `Upgrade: tcp`
(classic connection-upgrade semantics), and there is no Host
override. -/
def createHijackHttpRequestUpgrade (o : OptionsM) (env : EnvM) : Except String RequestM :=
  match (if o.hasData then env.marshalErr else none) with
  | some e => .error e
  | none =>
    match env.newRequestErr with
    | some e => .error e
    | none =>
      let h : HeaderM :=
        match o.header with
        | none => []
        | some caller => applyCallerHeaders [] caller
      let h := headerSet h "Content-Type" "text/plain"
      let h := headerSet h "Connection" "Upgrade"
      let h := headerSet h "Upgrade" "tcp"
      .ok { method := o.method, url := o.url, host := "", header := h }

/-! ### Endpoint resolution and dialing

`HijackHttpRequest` computes `protocol := ep.Scheme; address := ep.Path`
and, when the scheme is not `unix`, switches to `tcp` with
`address := ep.Host`, appending `":443"` (scheme `https`) or `":80"`
otherwise when the host string contains no `':'` (i.e. carries no
`host:port` port suffix).  The dial uses TLS exactly when the scheme is
`https`. -/

def resolveEndpoint (ep : UrlParts) : String × String :=
  if ep.scheme = "unix" then
    (ep.scheme, ep.path)
  else
    ("tcp",
      if ep.host.data.contains ':' then ep.host
      else if ep.scheme = "https" then ep.host ++ ":443" else ep.host ++ ":80")

def dialUsesTLS (ep : UrlParts) : Bool :=
  ep.scheme = "https"

/-- Observable network actions of the client handshake, in program
order.  The two `closeConn` entries are the deferred
`rwc.Close()` and `clientconn.Close()` running at return. -/
inductive NetAction where
  | dial (protocol : String) (address : String) (tls : Bool)
  | httpSend
  | hijack
  | closeConn
  deriving Repr, DecidableEq

/-- Embedding of `HijackHttpRequest` from `src/client.go` as a function
from the option values and the outcomes of its external effects to the
pair (network actions performed, returned error).  Faithful branch
structure: validation of `Method`/`Url` first, then
`createHijackHttpRequest`, then URL parse, then resolution and dial
(TLS for `https`), then `clientconn.Do` — whose error the code
discards — then `Hijack` (infallible) and `streamData`, with both
deferred closes running at return. -/
def HijackHttpRequest (o : OptionsM) (env : EnvM) : List NetAction × Option String :=
  if o.method = "" then ([], some ErrMissingMethod)
  else if o.url = "" then ([], some ErrMissingUrl)
  else
    match createHijackHttpRequest o env with
    | .error e => ([], some e)
    | .ok _ =>
      match env.parseResult with
      | .error e => ([], some e)
      | .ok ep =>
        let pa := resolveEndpoint ep
        let tls := dialUsesTLS ep
        match env.dialResult with
        | .error e => ([NetAction.dial pa.1 pa.2 tls], some e)
        | .ok _ =>
          ([NetAction.dial pa.1 pa.2 tls, NetAction.httpSend, NetAction.hijack,
            NetAction.closeConn, NetAction.closeConn],
            env.streamResult)

/-! ## The stream pump (`streamData` in `src/client.go`)

`streamData` starts two goroutines.  The first (the spec's *inbound*
direction) copies the hijacked stream into the local output/error
sinks, sends its error on the buffered channel `errsOut`, then — by its
deferred calls, in order — closes `errsOut` and closes `exit`.  The
second (the spec's *outbound* direction) copies the optional local
input into the stream, performs the `CloseWrite` half-close through the
dynamic type assertion `rwc.(closeWriter)`, and sends its copy error on
the buffered channel `errsIn`.  The main body blocks on `<-exit`, then
runs a `select` over `errsOut` and `errsIn`.

The outbound direction is modelled in full below; the inbound one is
abstracted to the error it produces (its internals — `io.Copy` or
`docker.StdCopy` into the sinks — do not affect any claim beyond that
error).
-/

/-- A finite reader: the data chunks it delivers, followed by either a
clean end-of-stream (`readErr = none`) or a read error. -/
structure SourceM where
  chunks : List (List Nat)
  readErr : Option String
  deriving Repr, DecidableEq

/-- A writer that accepts chunks, failing (with `failMsg`) on the
write attempt with index `n` when `failAt = some n`. -/
structure SinkM where
  failAt : Option Nat
  failMsg : String
  deriving Repr, DecidableEq

def sinkFailsAt (snk : SinkM) (i : Nat) : Bool :=
  match snk.failAt with
  | none => false
  | some n => i = n

/-- Events of the outbound goroutine, in order of occurrence. -/
inductive OutEvent where
  | readInput (c : List Nat)
  | writeStream (c : List Nat)
  | halfCloseAttempt
  | assertionPanic
  | logDebug (msg : String)
  | sendResult (e : Option String)
  deriving Repr, DecidableEq

/-- Embedding of `io.Copy(dst, src)`: read a chunk, write it, repeat;
stop with the write error when a write fails, otherwise run the source
dry and finish with its terminal condition (`nil` on end-of-stream, the
read error otherwise).  Returns the trace of read/write events and the
error `io.Copy` reports. -/
def ioCopyAux (snk : SinkM) : Nat → List (List Nat) → Option String →
    List OutEvent × Option String
  | _, [], term => ([], term)
  | i, c :: cs, term =>
    if sinkFailsAt snk i then
      ([OutEvent.readInput c, OutEvent.writeStream c], some snk.failMsg)
    else
      let rest := ioCopyAux snk (i + 1) cs term
      (OutEvent.readInput c :: OutEvent.writeStream c :: rest.1, rest.2)

def ioCopy (src : SourceM) (snk : SinkM) : List OutEvent × Option String :=
  ioCopyAux snk 0 src.chunks src.readErr

/-- The duplex stream as the outbound goroutine sees it: where writes
to it fail, whether its dynamic type implements the `closeWriter`
interface (`CloseWrite() error`), and what `CloseWrite` returns when it
does. -/
structure StreamM where
  sink : SinkM
  hasCloseWrite : Bool
  closeWriteErr : Option String
  deriving Repr, DecidableEq

inductive OutOutcome where
  | panicked
  | sent (e : Option String)
  deriving Repr, DecidableEq

/-- Embedding of the outbound goroutine of `streamData`
(`src/client.go`): `err` is `nil` unless an input stream is present, in
which case it is `io.Copy`'s result; then — unconditionally — the
dynamic type assertion `rwc.(closeWriter)` and the `CloseWrite` call,
whose own error is only passed to `Log.Debugf` (it shadows `err` inside
the `if`); finally `err` is sent on the goroutine's result channel.  A
stream whose dynamic type lacks `CloseWrite` makes the assertion panic
instead. -/
def outboundRun (input : Option SourceM) (st : StreamM) : List OutEvent × OutOutcome :=
  let copy :=
    match input with
    | none => ([], none)
    | some src => ioCopy src st.sink
  if st.hasCloseWrite then
    let logTr :=
      match st.closeWriteErr with
      | some e => [OutEvent.logDebug e]
      | none => []
    (copy.1 ++ OutEvent.halfCloseAttempt :: (logTr ++ [OutEvent.sendResult copy.2]),
      OutOutcome.sent copy.2)
  else
    (copy.1 ++ [OutEvent.assertionPanic], OutOutcome.panicked)

/-- True for the events of the input-copying phase. -/
def isCopyEvent : OutEvent → Bool
  | OutEvent.readInput _ => true
  | OutEvent.writeStream _ => true
  | _ => false

/-- The input was fully drained in a trace when every chunk of the
source was read. -/
def inputFullyDrained (src : SourceM) (tr : List OutEvent) : Bool :=
  tr.countP (fun e =>
    match e with
    | OutEvent.readInput _ => true
    | _ => false) == src.chunks.length

/-- Embedding of the result selection at the end of `streamData`
(`src/client.go`).  When `<-exit` returns, the inbound goroutine has
already buffered its error in `errsOut` (its send precedes the deferred
`close(errsOut)`/`close(exit)`), so `errsOut` is always a ready
`select` case.  `outboundReady` is whether the outbound goroutine had
already buffered its error in `errsIn` at that moment; if so, both
`select` cases are ready and the Go runtime picks one uniformly at
random — `pick = true` models choosing the `errsOut` (inbound) case. -/
def streamDataResult (inboundErr outboundErr : Option String)
    (outboundReady pick : Bool) : Option String :=
  if outboundReady then
    if pick then inboundErr else outboundErr
  else inboundErr

/-! ### Session completion (`<-exit` in `streamData`)

A small transition system over the channel events of `streamData` that
decide session completion.  The inbound goroutine's body ends with its
result send; its deferred calls then close `errsOut` and close `exit`
(in that order).  Only the inbound goroutine ever closes `exit`; the
main body's `<-exit` can return only once `exit` is closed.  The
outbound goroutine touches neither. -/

structure PumpState where
  inboundDone : Bool
  exitClosed : Bool
  outboundDone : Bool
  mainPassedExit : Bool
  deriving Repr, DecidableEq

def pumpInit : PumpState :=
  { inboundDone := false, exitClosed := false
    outboundDone := false, mainPassedExit := false }

/-- One scheduler step of `streamData`'s coordination: the inbound
goroutine finishes its copy and sends its result; its deferred
`close(exit)` runs; the outbound goroutine finishes; the main body
returns from `<-exit` — which requires `exit` to be closed, the only
way `<-exit` can ever return since nothing is sent on `exit`. -/
inductive PumpStep : PumpState → PumpState → Prop
  | inboundFinish (s : PumpState) (h : s.inboundDone = false) :
      PumpStep s { s with inboundDone := true }
  | inboundCloseExit (s : PumpState) (h1 : s.inboundDone = true)
      (h2 : s.exitClosed = false) :
      PumpStep s { s with exitClosed := true }
  | outboundFinish (s : PumpState) (h : s.outboundDone = false) :
      PumpStep s { s with outboundDone := true }
  | mainPassExit (s : PumpState) (h1 : s.exitClosed = true)
      (h2 : s.mainPassedExit = false) :
      PumpStep s { s with mainPassedExit := true }

inductive PumpReachable : PumpState → Prop
  | init : PumpReachable pumpInit
  | step {s t : PumpState} : PumpReachable s → PumpStep s t → PumpReachable t

/-- Invariant: the main body has passed `<-exit` only if `exit` was
closed, and `exit` is closed only by the inbound goroutine's deferred
call, after the inbound direction terminated. -/
theorem pump_invariant (s : PumpState) (hs : PumpReachable s) :
    (s.mainPassedExit = true → s.exitClosed = true) ∧
    (s.exitClosed = true → s.inboundDone = true) := by
  induction hs with
  | init => simp [pumpInit]
  | step _ hstep ih =>
    cases hstep with
    | inboundFinish h => exact ⟨ih.1, fun _ => rfl⟩
    | inboundCloseExit h1 h2 => exact ⟨fun _ => rfl, fun _ => h1⟩
    | outboundFinish h => exact ih
    | mainPassExit h1 h2 => exact ⟨fun _ => h1, ih.2⟩

/-! ## The server handshake (`HijackServer`)

`HijackServer(w)` asserts `w` to `http.Hijacker`, hijacks; on error it
returns `(nil, nil, err)`.  Otherwise it writes a zero-length byte
slice to the connection ("Flush the options to make sure the client
sets the raw mode") and returns the one connection as both the
`io.ReadCloser` and the `io.Writer` of the duplex stream, with no
error. -/

inductive ServerAction where
  | write (conn : Nat) (data : List Nat)
  deriving Repr, DecidableEq

def HijackServer (hijackResult : Except String Nat) :
    List ServerAction × (Option Nat × Option Nat × Option String) :=
  match hijackResult with
  | .error e => ([], (none, none, some e))
  | .ok conn => ([ServerAction.write conn []], (some conn, some conn, none))

/-! ## Claims -/

/-- Claim C2: the stream pump declares the session complete exactly when
the inbound direction (stream → local sinks) terminates: in every
reachable coordination state, the main body has passed `<-exit` only if
the inbound goroutine terminated; and a state where the outbound
direction has terminated while inbound has not is reachable, the
session is not complete there, and no single step from it can complete
the session. -/
theorem streamData_completion_authority :
    (∀ s : PumpState, PumpReachable s → s.mainPassedExit = true → s.inboundDone = true) ∧
    (∃ s : PumpState, PumpReachable s ∧ s.outboundDone = true ∧ s.inboundDone = false ∧
      s.mainPassedExit = false ∧
      ∀ t : PumpState, PumpStep s t → t.mainPassedExit = false) := by
  constructor
  · intro s hs hm
    exact (pump_invariant s hs).2 ((pump_invariant s hs).1 hm)
  · refine ⟨{ inboundDone := false, exitClosed := false, outboundDone := true, mainPassedExit := false }, ?_, rfl, rfl, rfl, ?_⟩
    · exact PumpReachable.step PumpReachable.init (PumpStep.outboundFinish pumpInit rfl)
    · intro t ht
      cases ht with
      | inboundFinish h => rfl
      | inboundCloseExit h1 h2 => cases h1
      | outboundFinish h => cases h
      | mainPassExit h1 h2 => cases h1

/-- Witness for C2: applying the completion-authority theorem to the
concrete reachable state in which the session just completed. -/
theorem streamData_completion_authority_witness :
    PumpState.inboundDone { inboundDone := true, exitClosed := true, outboundDone := false, mainPassedExit := true } = true := by
  refine streamData_completion_authority.1 _ ?_ rfl
  have h1 : PumpReachable { inboundDone := true, exitClosed := false, outboundDone := false, mainPassedExit := false } :=
    PumpReachable.step PumpReachable.init (PumpStep.inboundFinish pumpInit rfl)
  have h2 : PumpReachable { inboundDone := true, exitClosed := true, outboundDone := false, mainPassedExit := false } :=
    PumpReachable.step h1 (PumpStep.inboundCloseExit _ rfl rfl)
  exact PumpReachable.step h2 (PumpStep.mainPassExit _ rfl rfl)

/-- Claim C4: an empty method yields `ErrMissingMethod` and an empty
locator yields `ErrMissingUrl`, in both cases with an empty action
trace: no dial and no send happen. -/
theorem HijackHttpRequest_validates_first (o : OptionsM) (env : EnvM) :
    (o.method = "" → HijackHttpRequest o env = ([], some ErrMissingMethod)) ∧
    (o.method ≠ "" → o.url = "" → HijackHttpRequest o env = ([], some ErrMissingUrl)) := by
  constructor
  · intro h
    simp [HijackHttpRequest, h]
  · intro h1 h2
    simp [HijackHttpRequest, h1, h2]

/-- Witness for C4 at concrete option values. -/
theorem HijackHttpRequest_validates_first_witness :
    HijackHttpRequest
        { method := "", url := "http://h/p", host := "", header := none, hasData := false }
        { marshalErr := none, newRequestErr := none, parseResult := Except.error "x"
          dialResult := Except.error "x", doErr := none, streamResult := none }
      = ([], some ErrMissingMethod) ∧
    HijackHttpRequest
        { method := "GET", url := "", host := "", header := none, hasData := false }
        { marshalErr := none, newRequestErr := none, parseResult := Except.error "x"
          dialResult := Except.error "x", doErr := none, streamResult := none }
      = ([], some ErrMissingUrl) := by
  constructor
  · exact (HijackHttpRequest_validates_first _ _).1 rfl
  · exact (HijackHttpRequest_validates_first _ _).2 (by decide) rfl

/-- Claim C5: scheme `unix` resolves to protocol family `unix` with the
path as address; any other scheme resolves to `tcp` with the host as
address, with `":443"` appended for scheme `https` and `":80"`
otherwise whenever the host carries no port (no `':'` in the
`host[:port]` string); and the dial uses TLS exactly for scheme
`https`. -/
theorem resolveEndpoint_spec (ep : UrlParts) :
    (ep.scheme = "unix" → resolveEndpoint ep = ("unix", ep.path)) ∧
    (ep.scheme ≠ "unix" → ep.host.data.contains ':' = false →
      resolveEndpoint ep =
        ("tcp", ep.host ++ (if ep.scheme = "https" then ":443" else ":80"))) ∧
    (ep.scheme ≠ "unix" → ep.host.data.contains ':' = true →
      resolveEndpoint ep = ("tcp", ep.host)) ∧
    (dialUsesTLS ep = true ↔ ep.scheme = "https") := by
  refine ⟨?_, ?_, ?_, ?_⟩
  · intro h
    simp [resolveEndpoint, h]
  · intro h1 h2
    unfold resolveEndpoint
    rw [if_neg h1, if_neg (by rw [h2]; simp)]
    by_cases hs : ep.scheme = "https"
    · rw [if_pos hs, if_pos hs]
    · rw [if_neg hs, if_neg hs]
  · intro h1 h2
    unfold resolveEndpoint
    rw [if_neg h1, if_pos h2]
  · simp [dialUsesTLS]

/-- Witness for C5 at the locator shapes named by the spec. -/
theorem resolveEndpoint_spec_witness :
    resolveEndpoint { scheme := "https", host := "host", path := "/path" }
      = ("tcp", "host:443") ∧
    resolveEndpoint { scheme := "http", host := "host", path := "/path" }
      = ("tcp", "host:80") ∧
    resolveEndpoint { scheme := "unix", host := "", path := "/var/run/x.sock" }
      = ("unix", "/var/run/x.sock") := by
  refine ⟨?_, ?_, ?_⟩
  · exact ((resolveEndpoint_spec _).2.1 (by decide) (by decide)).trans (by decide)
  · exact ((resolveEndpoint_spec _).2.1 (by decide) (by decide)).trans (by decide)
  · exact (resolveEndpoint_spec _).1 rfl

/-- Claim C9: the server-side handshake hijacks the connection, writes
a zero-length flush on it, and returns the same connection as both the
read end and the write end; if the hijack fails it returns the hijack
error and no streams. -/
theorem HijackServer_spec (hr : Except String Nat) :
    (∀ e, hr = Except.error e → HijackServer hr = ([], (none, none, some e))) ∧
    (∀ conn, hr = Except.ok conn →
      HijackServer hr
        = ([ServerAction.write conn []], (some conn, some conn, none))) := by
  constructor
  · intro e he
    subst he
    rfl
  · intro c hc
    subst hc
    rfl

/-- Witness for C9 at a concrete connection and a concrete hijack
failure. -/
theorem HijackServer_spec_witness :
    HijackServer (Except.ok 7) = ([ServerAction.write 7 []], (some 7, some 7, none)) ∧
    HijackServer (Except.error "hijack failed")
      = ([], (none, none, some "hijack failed")) :=
  ⟨(HijackServer_spec _).2 7 rfl, (HijackServer_spec _).1 "hijack failed" rfl⟩

/-- Claim C10: the outbound direction reaches the `rwc.(closeWriter)`
dynamic type assertion unconditionally — also when no local input
source is present — so for every stream whose dynamic type implements
`CloseWrite` the half-close is attempted, and for every stream that
does not, the outbound task panics at the assertion instead of
returning any error. -/
theorem streamData_closeWrite_assertion (input : Option SourceM) (st : StreamM) :
    (st.hasCloseWrite = true →
      OutEvent.halfCloseAttempt ∈ (outboundRun input st).1) ∧
    (st.hasCloseWrite = false →
      (outboundRun input st).2 = OutOutcome.panicked ∧
      OutEvent.assertionPanic ∈ (outboundRun input st).1 ∧
      ∀ e : Option String, (outboundRun input st).2 ≠ OutOutcome.sent e) := by
  constructor
  · intro h
    simp [outboundRun, h]
  · intro h
    refine ⟨?_, ?_, ?_⟩ <;> simp [outboundRun, h]

/-- Witness for C10: a stream without `CloseWrite` and no input source
makes the outbound task panic. -/
theorem streamData_closeWrite_assertion_witness :
    (outboundRun none
      { sink := { failAt := none, failMsg := "" }, hasCloseWrite := false
        closeWriteErr := none }).2 = OutOutcome.panicked :=
  ((streamData_closeWrite_assertion none _).2 rfl).1

/-- Claim C7: every request built by the client handshake carries
`Content-Type: text/plain`; the upgrade-variant builder (the older
client revision, which requests classic connection-upgrade semantics)
additionally carries `Connection: Upgrade` and `Upgrade: tcp`. -/
theorem createHijackHttpRequest_default_headers (o : OptionsM) (env : EnvM) :
    (∀ r : RequestM, createHijackHttpRequest o env = Except.ok r →
      headerGet r.header "Content-Type" = ["text/plain"]) ∧
    (∀ r : RequestM, createHijackHttpRequestUpgrade o env = Except.ok r →
      headerGet r.header "Content-Type" = ["text/plain"] ∧
      headerGet r.header "Connection" = ["Upgrade"] ∧
      headerGet r.header "Upgrade" = ["tcp"]) := by
  constructor
  · intro r hr
    unfold createHijackHttpRequest at hr
    split at hr
    · cases hr
    · split at hr
      · cases hr
      · cases hr
        exact headerGet_set_same _ "Content-Type" "text/plain"
  · intro r hr
    unfold createHijackHttpRequestUpgrade at hr
    split at hr
    · cases hr
    · split at hr
      · cases hr
      · cases hr
        refine ⟨?_, ?_, ?_⟩
        · rw [headerGet_set_ne _ _ _ _ (by decide),
            headerGet_set_ne _ _ _ _ (by decide), headerGet_set_same]
        · rw [headerGet_set_ne _ _ _ _ (by decide), headerGet_set_same]
        · exact headerGet_set_same _ "Upgrade" "tcp"

/-- Witness for C7: the headers of a concretely built request. -/
theorem createHijackHttpRequest_default_headers_witness :
    headerGet [("Content-Type", ["text/plain"])] "Content-Type" = ["text/plain"] :=
  (createHijackHttpRequest_default_headers
    { method := "GET", url := "u", host := "", header := none, hasData := false }
    { marshalErr := none, newRequestErr := none, parseResult := Except.error "x",
      dialResult := Except.error "x", doErr := none, streamResult := none }).1
    { method := "GET", url := "u", host := "", header := [("Content-Type", ["text/plain"])] }
    rfl

/-- Claim C1 (counterexample): `streamData` decides the result by a
`select` over the two buffered error channels after `<-exit`; when the
outbound direction has also finished, both cases are ready and Go's
`select` picks one at random.  With both directions failing, the run
that picks the outbound case returns the outbound error, not the
inbound one — inbound-error priority does not hold. -/
theorem streamData_result_pick_outbound :
    streamDataResult (some "inbound failed") (some "outbound failed") true false
      = some "outbound failed" ∧
    streamDataResult (some "inbound failed") (some "outbound failed") true false
      ≠ some "inbound failed" := by
  constructor
  · rfl
  · decide

/-- Claim C1 (amended): the Session Result is the inbound error
whenever the outbound direction had not finished when the result is
chosen, or whenever the `select` picks the inbound case; in every run
it is one of the two directions' errors; and when neither direction
errs the result is success (`none`). -/
theorem streamData_result_selection (inE outE : Option String)
    (outboundReady pick : Bool) :
    (outboundReady = false → streamDataResult inE outE outboundReady pick = inE) ∧
    (pick = true → streamDataResult inE outE outboundReady pick = inE) ∧
    (streamDataResult inE outE outboundReady pick = inE ∨
      streamDataResult inE outE outboundReady pick = outE) ∧
    (inE = none → outE = none → streamDataResult inE outE outboundReady pick = none) := by
  unfold streamDataResult
  cases outboundReady <;> cases pick <;> simp <;> exact fun h _ => h

/-- Witness for C1 (amended) at concrete errors: outbound still
running, so the inbound error is returned. -/
theorem streamData_result_selection_witness :
    streamDataResult (some "inbound failed") none false true = some "inbound failed" :=
  (streamData_result_selection (some "inbound failed") none false true).1 rfl

/-- Claim C3 (counterexample): `clientconn.Do(req)` is called with its
return values discarded, so an HTTP-send failure is not surfaced: with
the send failing and the stream pump succeeding, the call returns no
error at all. -/
theorem HijackHttpRequest_send_error_swallowed :
    (HijackHttpRequest
      { method := "POST", url := "http://h/p", host := "", header := none,
        hasData := false }
      { marshalErr := none, newRequestErr := none,
        parseResult := Except.ok { scheme := "http", host := "h", path := "/p" },
        dialResult := Except.ok 1, doErr := some "send failed",
        streamResult := none }).2 = none ∧
    (HijackHttpRequest
      { method := "POST", url := "http://h/p", host := "", header := none,
        hasData := false }
      { marshalErr := none, newRequestErr := none,
        parseResult := Except.ok { scheme := "http", host := "h", path := "/p" },
        dialResult := Except.ok 1, doErr := some "send failed",
        streamResult := none }).2 ≠ some "send failed" := by
  constructor
  · rfl
  · decide

/-- Claim C3 (amended): a transport-dial failure is surfaced as the
returned error; an HTTP-send failure is ignored (`clientconn.Do`'s
error is discarded and the session proceeds to hijack and stream, the
returned error being the stream result, independent of the send
outcome); the hijack step (`httputil.ClientConn.Hijack`) cannot fail;
and after a successful dial the connection is closed before returning
on every path. -/
theorem HijackHttpRequest_failure_surfacing (o : OptionsM) (env : EnvM) (ep : UrlParts)
    (hm : o.method ≠ "") (hu : o.url ≠ "")
    (h1 : env.marshalErr = none) (h2 : env.newRequestErr = none)
    (hp : env.parseResult = Except.ok ep) :
    (∀ e, env.dialResult = Except.error e →
      HijackHttpRequest o env =
        ([NetAction.dial (resolveEndpoint ep).1 (resolveEndpoint ep).2 (dialUsesTLS ep)],
          some e)) ∧
    (∀ c, env.dialResult = Except.ok c →
      NetAction.closeConn ∈ (HijackHttpRequest o env).1 ∧
      (HijackHttpRequest o env).2 = env.streamResult) := by
  have hcreate : ∃ r : RequestM, createHijackHttpRequest o env = Except.ok r := by
    unfold createHijackHttpRequest
    rw [h2, h1, ite_self]
    exact ⟨_, rfl⟩
  obtain ⟨r, hr⟩ := hcreate
  constructor
  · intro e hd
    unfold HijackHttpRequest
    rw [if_neg hm, if_neg hu, hr, hp, hd]
  · intro c hd
    unfold HijackHttpRequest
    rw [if_neg hm, if_neg hu, hr, hp, hd]
    constructor
    · simp
    · rfl

/-- Witness for C3 (amended) at a concrete failing dial. -/
theorem HijackHttpRequest_failure_surfacing_witness :
    HijackHttpRequest
        { method := "GET", url := "http://h/p", host := "", header := none,
          hasData := false }
        { marshalErr := none, newRequestErr := none,
          parseResult := Except.ok { scheme := "http", host := "h", path := "/p" },
          dialResult := Except.error "connection refused", doErr := none,
          streamResult := none }
      = ([NetAction.dial "tcp" "h:80" false], some "connection refused") := by
  have h := (HijackHttpRequest_failure_surfacing
    { method := "GET", url := "http://h/p", host := "", header := none,
      hasData := false }
    { marshalErr := none, newRequestErr := none,
      parseResult := Except.ok { scheme := "http", host := "h", path := "/p" },
      dialResult := Except.error "connection refused", doErr := none,
      streamResult := none }
    { scheme := "http", host := "h", path := "/p" }
    (by decide) (by decide) rfl rfl rfl).1 "connection refused" rfl
  exact h.trans (by decide)

theorem ioCopyAux_events (snk : SinkM) (i : Nat) (cs : List (List Nat))
    (term : Option String) :
    ∀ e ∈ (ioCopyAux snk i cs term).1, isCopyEvent e = true := by
  induction cs generalizing i with
  | nil =>
    intro e he
    cases he
  | cons c rest ih =>
    intro e he
    rw [ioCopyAux] at he
    by_cases hf : sinkFailsAt snk i = true
    · rw [if_pos hf] at he
      rcases List.mem_cons.mp he with h | h
      · rw [h]
        rfl
      · rcases List.mem_cons.mp h with h' | h'
        · rw [h']
          rfl
        · cases h'
    · rw [if_neg hf] at he
      rcases List.mem_cons.mp he with h | h
      · rw [h]
        rfl
      · rcases List.mem_cons.mp h with h' | h'
        · rw [h']
          rfl
        · exact ih (i + 1) e h'

/-- Claim C6 (counterexample): with a two-chunk input whose first
stream write fails, `io.Copy` stops early — the input is not fully
drained — and yet `CloseWrite` is still attempted, because the code
calls it unconditionally after the copy: the half-close is not
attempted "only after the input is fully drained". -/
theorem outbound_halfclose_despite_write_error :
    OutEvent.halfCloseAttempt ∈
      (outboundRun (some { chunks := [[0], [1]], readErr := none })
        { sink := { failAt := some 0, failMsg := "write failed" },
          hasCloseWrite := true, closeWriteErr := none }).1 ∧
    inputFullyDrained { chunks := [[0], [1]], readErr := none }
      (outboundRun (some { chunks := [[0], [1]], readErr := none })
        { sink := { failAt := some 0, failMsg := "write failed" },
          hasCloseWrite := true, closeWriteErr := none }).1 = false := by
  constructor
  · decide
  · decide

/-- Claim C6 (amended): for every session with a local input source
(and a stream implementing `CloseWrite`), the half-close attempt
strictly follows the copy phase — everything before it is an input
read or a stream write, nothing after it is — and is attempted also
when the copy failed before draining the input; the error the outbound
direction reports is exactly `io.Copy`'s error, independent of the
`CloseWrite` outcome, and a `CloseWrite` failure is recorded only via
`Log.Debugf`. -/
theorem outbound_halfclose_policy (src : SourceM) (st : StreamM)
    (hcw : st.hasCloseWrite = true) :
    (∃ pre post, (outboundRun (some src) st).1
        = pre ++ OutEvent.halfCloseAttempt :: post ∧
      (∀ e ∈ pre, isCopyEvent e = true) ∧
      (∀ e ∈ post, isCopyEvent e = false)) ∧
    (outboundRun (some src) st).2 = OutOutcome.sent (ioCopy src st.sink).2 ∧
    (∀ x y : Option String,
      (outboundRun (some src) { st with closeWriteErr := x }).2 =
        (outboundRun (some src) { st with closeWriteErr := y }).2) ∧
    (∀ e, st.closeWriteErr = some e →
      OutEvent.logDebug e ∈ (outboundRun (some src) st).1) := by
  refine ⟨?_, ?_, ?_, ?_⟩
  · refine ⟨(ioCopy src st.sink).1,
      (match st.closeWriteErr with
        | some e => [OutEvent.logDebug e]
        | none => []) ++ [OutEvent.sendResult (ioCopy src st.sink).2], ?_, ?_, ?_⟩
    · simp [outboundRun, hcw]
    · exact ioCopyAux_events st.sink 0 src.chunks src.readErr
    · intro e he
      rcases List.mem_append.mp he with h | h
      · cases hce : st.closeWriteErr with
        | none =>
          rw [hce] at h
          cases h
        | some msg =>
          rw [hce] at h
          rcases List.mem_cons.mp h with h' | h'
          · rw [h']
            rfl
          · cases h'
      · rcases List.mem_cons.mp h with h' | h'
        · rw [h']
          rfl
        · cases h'
  · simp [outboundRun, hcw]
  · intro x y
    simp [outboundRun, hcw]
  · intro e he
    simp [outboundRun, hcw, he]

/-- Witness for C6 (amended): a drained empty input with a failing
`CloseWrite`; the outbound direction still reports success and the
failure shows up as a debug log event. -/
theorem outbound_halfclose_policy_witness :
    (outboundRun (some { chunks := [], readErr := none })
      { sink := { failAt := none, failMsg := "" }, hasCloseWrite := true,
        closeWriteErr := some "close failed" }).2 = OutOutcome.sent none ∧
    OutEvent.logDebug "close failed" ∈
      (outboundRun (some { chunks := [], readErr := none })
        { sink := { failAt := none, failMsg := "" }, hasCloseWrite := true,
          closeWriteErr := some "close failed" }).1 := by
  constructor
  · exact (outbound_halfclose_policy
      { chunks := [], readErr := none }
      { sink := { failAt := none, failMsg := "" }, hasCloseWrite := true,
        closeWriteErr := some "close failed" } rfl).2.1
  · exact (outbound_halfclose_policy
      { chunks := [], readErr := none }
      { sink := { failAt := none, failMsg := "" }, hasCloseWrite := true,
        closeWriteErr := some "close failed" } rfl).2.2.2 "close failed" rfl

/-- Claim C8 (counterexample): a caller-supplied `Content-Type` does
not survive to the built request: `req.Header.Set("Content-Type",
"text/plain")` runs after the caller headers were applied, so the
default clobbers the caller's value — caller headers cannot override
the default `Content-Type`. -/
theorem content_type_not_overridable :
    headerGet
      (match createHijackHttpRequest
          { method := "GET", url := "u", host := "",
            header := some [("Content-Type", ["application/json"])],
            hasData := false }
          { marshalErr := none, newRequestErr := none,
            parseResult := Except.error "x", dialResult := Except.error "x",
            doErr := none, streamResult := none } with
        | Except.ok r => r.header
        | Except.error _ => []) "Content-Type" = ["text/plain"] ∧
    (["text/plain"] : List String) ≠ ["application/json"] := by
  constructor
  · rfl
  · decide

/-- Claim C8 (amended): each caller-supplied header key replaces any
existing value for that key rather than appending — of a multi-valued
caller entry only the last value is kept — except that the default
`Content-Type: text/plain` is set after the caller headers and
clobbers any caller value for that key, so callers cannot override
it. -/
theorem caller_headers_last_writer_wins (o : OptionsM) (env : EnvM)
    (caller : List (String × List String)) (r : RequestM)
    (hh : o.header = some caller)
    (hnd : (caller.map Prod.fst).Nodup)
    (hr : createHijackHttpRequest o env = Except.ok r) :
    (∀ k vs, (k, vs) ∈ caller → k ≠ "Content-Type" →
      headerGet r.header k = vs.getLast?.toList) ∧
    headerGet r.header "Content-Type" = ["text/plain"] := by
  have hdr : r.header
      = headerSet (applyCallerHeaders [] caller) "Content-Type" "text/plain" := by
    unfold createHijackHttpRequest at hr
    split at hr
    · cases hr
    · split at hr
      · cases hr
      · rw [hh] at hr
        cases hr
        rfl
  constructor
  · intro k vs hmem hk
    rw [hdr, headerGet_set_ne _ _ _ _ hk,
      headerGet_applyCaller_mem caller [] k vs hnd hmem]
  · rw [hdr, headerGet_set_same]

/-- Witness for C8 (amended): of the caller entry
`X-Token: [a, b]` only the last value survives, and the default
`Content-Type` is present. -/
theorem caller_headers_last_writer_wins_witness :
    headerGet [("Content-Type", ["text/plain"]), ("X-Token", ["b"])] "X-Token"
      = ["b"] ∧
    headerGet [("Content-Type", ["text/plain"]), ("X-Token", ["b"])] "Content-Type"
      = ["text/plain"] := by
  have h := caller_headers_last_writer_wins
    { method := "GET", url := "u", host := "",
      header := some [("X-Token", ["a", "b"])], hasData := false }
    { marshalErr := none, newRequestErr := none, parseResult := Except.error "x",
      dialResult := Except.error "x", doErr := none, streamResult := none }
    [("X-Token", ["a", "b"])]
    { method := "GET", url := "u", host := "",
      header := [("Content-Type", ["text/plain"]), ("X-Token", ["b"])] }
    rfl (by decide) rfl
  exact ⟨(h.1 "X-Token" ["a", "b"] (by decide) (by decide)).trans (by decide), h.2⟩
